import Mathlib

/-!
Shallow embedding of two Substrate pallets from `reaudito/substrate-recipes`:

* `pallets/storage-cache/src/lib.rs` — a singleton `u32` slot (`SomeCopyValue`),
  a singleton account slot (`KingMember`) and a member list (`GroupMembers`),
  with cached vs. uncached variants of an increase and a king swap.
* `pallets/simple-map/src/lib.rs` — a per-account `u32` map (`SimpleMap`)
  with `set`/`get`/`take`/`increase` dispatchables.

Machine integers (`u32`) are modelled as `Nat` together with the checked
addition `checked_add`, which fails exactly when the mathematical sum exceeds
`u32::MAX`.  Storage reads of absent values that the Rust code `unwrap`s are
modelled as defined failures, following the directive of the specification
(`Uninitialized` for `SomeCopyValue`, `NoIncumbent` for `KingMember`); the
unwrap of an absent `GroupMembers` inside `is_member` has no such directive
and is modelled as the distinguished outcome `membersPanic`.
Every dispatchable takes the already-authenticated caller as an argument
(`ensure_signed` is host-level) and returns its outcome, the post state, the
emitted events, and the number of backing-store reads it performed.
-/

/-- Constant `u32::MAX`. -/
def u32Max : Nat := 4294967295

/-- Checked addition `u32::checked_add`: `some (a + b)` when the sum fits in 32 bits, else `none`. -/
def checked_add (a b : Nat) : Option Nat :=
  if a + b ≤ u32Max then some (a + b) else none

/-- Opaque account identity (`T::AccountId`); only equality is used. -/
abbrev Identity := Nat

namespace StorageCache

/-- The three storage items of the storage-cache pallet.  Each is a
`StorageValue` with `OptionQuery`: absent until first written. -/
structure State where
  someCopyValue : Option Nat
  kingMember : Option Identity
  groupMembers : Option (List Identity)
deriving DecidableEq, Repr

/-- Failure outcomes of the storage-cache dispatchables.
`overflow1`/`overflow2` are the `"addition overflowed1"`/`"addition overflowed2"`
errors; `priorityHeld`/`notEligible`/`alreadyMember` are the `ensure!` failures
of the king swap and `mock_add_member`.  `uninitialized` and `noIncumbent`
model the `unwrap()` of an absent `SomeCopyValue` resp. `KingMember` as defined
failures, as the specification directs; `membersPanic` models the `unwrap()` of
an absent `GroupMembers` inside `is_member`, which the specification leaves as
a crash. -/
inductive Err where
  | overflow1
  | overflow2
  | priorityHeld
  | notEligible
  | alreadyMember
  | uninitialized
  | noIncumbent
  | membersPanic
deriving DecidableEq, Repr

/-- Result of a dispatchable: success or a specific failure. -/
inductive Outcome where
  | ok
  | err (e : Err)
deriving DecidableEq, Repr

/-- Events `Event<T>` of the storage-cache pallet. -/
inductive Event where
  | inefficientValueChange (newValue now : Nat)
  | betterValueChange (newValue now : Nat)
  | inefficientKingSwap (old new : Identity)
  | betterKingSwap (old new : Identity)
deriving DecidableEq, Repr

/-- What one dispatchable call produces: outcome, post state, deposited
events, and the number of backing-store reads (`get` calls) performed. -/
structure Result where
  outcome : Outcome
  state : State
  events : List Event
  reads : Nat
deriving DecidableEq, Repr

/-- Helper `Pallet::is_member`: `<GroupMembers<T>>::get().unwrap().contains(who)`.
The `unwrap` of an absent list is partiality, rendered as `none`. -/
def is_member (st : State) (who : Identity) : Option Bool :=
  match st.groupMembers with
  | none => none
  | some ms => some (ms.contains who)

/-- Dispatchable `increase_value_no_cache(origin, some_val)`: reads `SomeCopyValue`, adds
`some_val` (checked), wastefully re-reads `SomeCopyValue`, adds it again
(checked), stores the result and emits `InefficientValueChange`. -/
def increase_value_no_cache (st : State) (now : Nat) (some_val : Nat) : Result :=
  let original_call := st.someCopyValue
  match original_call with
  | none => ⟨.err .uninitialized, st, [], 1⟩
  | some oc =>
    match checked_add oc some_val with
    | none => ⟨.err .overflow1, st, [], 1⟩
    | some some_calculation =>
      let unnecessary_call := st.someCopyValue
      match unnecessary_call with
      | none => ⟨.err .uninitialized, st, [], 2⟩
      | some uc =>
        match checked_add some_calculation uc with
        | none => ⟨.err .overflow2, st, [], 2⟩
        | some another_calculation =>
          ⟨.ok, { st with someCopyValue := some another_calculation },
            [.inefficientValueChange another_calculation now], 2⟩

/-- Dispatchable `increase_value_w_copy(origin, some_val)`: same arithmetic but reuses the
first read instead of re-reading; emits `BetterValueChange`. -/
def increase_value_w_copy (st : State) (now : Nat) (some_val : Nat) : Result :=
  let original_call := st.someCopyValue
  match original_call with
  | none => ⟨.err .uninitialized, st, [], 1⟩
  | some oc =>
    match checked_add oc some_val with
    | none => ⟨.err .overflow1, st, [], 1⟩
    | some some_calculation =>
      match checked_add some_calculation oc with
      | none => ⟨.err .overflow2, st, [], 1⟩
      | some another_calculation =>
        ⟨.ok, { st with someCopyValue := some another_calculation },
          [.betterValueChange another_calculation now], 1⟩

/-- Dispatchable `swap_king_no_cache(origin)`: reads `KingMember` (unwrap: `noIncumbent`
when absent), checks the incumbent is not a member and the caller is, then
wastefully re-reads `KingMember` for the event, stores the caller and emits
`InefficientKingSwap(old, new)`. -/
def swap_king_no_cache (st : State) (new_king : Identity) : Result :=
  let existing_king := st.kingMember
  match existing_king with
  | none => ⟨.err .noIncumbent, st, [], 1⟩
  | some ek =>
    match is_member st ek with
    | none => ⟨.err .membersPanic, st, [], 1⟩
    | some ekMember =>
      if ekMember then ⟨.err .priorityHeld, st, [], 1⟩
      else
        match is_member st new_king with
        | none => ⟨.err .membersPanic, st, [], 1⟩
        | some nkMember =>
          if nkMember then
            let old_king := st.kingMember
            match old_king with
            | none => ⟨.err .noIncumbent, st, [], 2⟩
            | some ok_ =>
              ⟨.ok, { st with kingMember := some new_king },
                [.inefficientKingSwap ok_ new_king], 2⟩
          else ⟨.err .notEligible, st, [], 1⟩

/-- Dispatchable `swap_king_with_cache(origin)`: identical checks, but reuses the first
read (`old_king = existing_king.clone()`) for the event; emits
`BetterKingSwap(old, new)`. -/
def swap_king_with_cache (st : State) (new_king : Identity) : Result :=
  let existing_king := st.kingMember
  match existing_king with
  | none => ⟨.err .noIncumbent, st, [], 1⟩
  | some ek =>
    match is_member st ek with
    | none => ⟨.err .membersPanic, st, [], 1⟩
    | some ekMember =>
      if ekMember then ⟨.err .priorityHeld, st, [], 1⟩
      else
        match is_member st new_king with
        | none => ⟨.err .membersPanic, st, [], 1⟩
        | some nkMember =>
          if nkMember then
            ⟨.ok, { st with kingMember := some new_king },
              [.betterKingSwap ek new_king], 1⟩
          else ⟨.err .notEligible, st, [], 1⟩

/-- Dispatchable `set_copy(origin, val)`: unconditionally stores `val` in `SomeCopyValue`.
No event. -/
def set_copy (st : State) (val : Nat) : Result :=
  ⟨.ok, { st with someCopyValue := some val }, [], 0⟩

/-- Dispatchable `set_king(origin)`: unconditionally stores the caller in `KingMember`.
No event. -/
def set_king (st : State) (user : Identity) : Result :=
  ⟨.ok, { st with kingMember := some user }, [], 0⟩

/-- Dispatchable `mock_add_member(origin)`: fails when the caller is already a member,
otherwise appends the caller to `GroupMembers`.  The `is_member` check
unwraps `GroupMembers`, so an absent list is `membersPanic`.  No event. -/
def mock_add_member (st : State) (added : Identity) : Result :=
  match st.groupMembers with
  | none => ⟨.err .membersPanic, st, [], 1⟩
  | some ms =>
    if ms.contains added then ⟨.err .alreadyMember, st, [], 1⟩
    else ⟨.ok, { st with groupMembers := some (ms ++ [added]) }, [], 1⟩

/-- One dispatchable of the storage-cache pallet together with its
non-caller arguments. -/
inductive Call where
  | increaseNoCache (some_val : Nat)
  | increaseWCopy (some_val : Nat)
  | swapNoCache
  | swapWithCache
  | setCopy (val : Nat)
  | setKing
  | addMember
deriving DecidableEq, Repr

/-- Dispatch one call of the storage-cache pallet. -/
def step (caller : Identity) (now : Nat) (c : Call) (st : State) : Result :=
  match c with
  | .increaseNoCache v => increase_value_no_cache st now v
  | .increaseWCopy v => increase_value_w_copy st now v
  | .swapNoCache => swap_king_no_cache st caller
  | .swapWithCache => swap_king_with_cache st caller
  | .setCopy v => set_copy st v
  | .setKing => set_king st caller
  | .addMember => mock_add_member st caller

/-- Genesis: no storage item has ever been written. -/
def genesis : State := ⟨none, none, none⟩

/-- States reachable from genesis through the public dispatchables. -/
inductive Reachable : State → Prop where
  | genesis : Reachable genesis
  | step (caller now : Nat) (c : Call) (st : State) :
      Reachable st → Reachable (step caller now c st).state

/-- The member list, when present, holds no duplicate identity. -/
def membersNodup (st : State) : Prop :=
  ∀ ms, st.groupMembers = some ms → ms.Nodup

/-- Number of events a storage-cache dispatchable deposits when it succeeds:
one for each increase/swap variant, none for `set_copy`, `set_king` and
`mock_add_member`. -/
def cacheSuccessEventCount : Call → Nat
  | .increaseNoCache _ => 1
  | .increaseWCopy _ => 1
  | .swapNoCache => 1
  | .swapWithCache => 1
  | .setCopy _ => 0
  | .setKing => 0
  | .addMember => 0

/-- Full behaviour of both swap variants on a state whose `KingMember` is
`some x` and whose `GroupMembers` is `some ms`: blocked with `priorityHeld`
when the incumbent `x` is a member, succeeding (new king `y`, one swap event
naming old and new king) when `x` is not a member and the caller `y` is,
and failing with `notEligible` otherwise; every failure leaves the state
unchanged and emits nothing. -/
def swapBehavior (st : State) (x y : Identity) (ms : List Identity) : Prop :=
  swap_king_no_cache st y =
    (if ms.contains x then ⟨.err .priorityHeld, st, [], 1⟩
     else if ms.contains y then
       ⟨.ok, { st with kingMember := some y }, [.inefficientKingSwap x y], 2⟩
     else ⟨.err .notEligible, st, [], 1⟩)
  ∧ swap_king_with_cache st y =
    (if ms.contains x then ⟨.err .priorityHeld, st, [], 1⟩
     else if ms.contains y then
       ⟨.ok, { st with kingMember := some y }, [.betterKingSwap x y], 1⟩
     else ⟨.err .notEligible, st, [], 1⟩)

end StorageCache

namespace SimpleMap

/-- The `SimpleMap` storage map, `AccountId → u32`.  Key presence matters
(`contains_key` guards every read), so entries are modelled as optional. -/
structure State where
  entries : Identity → Option Nat

/-- Failure outcomes of the simple-map dispatchables (`Error<T>`). -/
inductive Err where
  | noValueStored
  | maxValueReached
deriving DecidableEq, Repr

/-- Result of a dispatchable: success or a specific failure. -/
inductive Outcome where
  | ok
  | err (e : Err)
deriving DecidableEq, Repr

/-- Events `Event<T>` of the simple-map pallet. -/
inductive Event where
  | entrySet (user : Identity) (v : Nat)
  | entryGot (getter : Identity) (v : Nat)
  | entryTaken (user : Identity) (v : Nat)
  | entryIncreased (user : Identity) (old new : Nat)
deriving DecidableEq, Repr

/-- What one dispatchable call produces, with a count of each backing-store
primitive it invoked: `reads` (`get`), `containsChecks` (`contains_key`),
`writes` (`insert`), `removes` (`take`). -/
structure Result where
  outcome : Outcome
  state : State
  events : List Event
  reads : Nat
  containsChecks : Nat
  writes : Nat
  removes : Nat

/-- Point update of the map, as `insert` performs it. -/
def State.insert (st : State) (k : Identity) (v : Nat) : State :=
  ⟨fun a => if a = k then some v else st.entries a⟩

/-- Point removal of the map, as `take` performs it. -/
def State.remove (st : State) (k : Identity) : State :=
  ⟨fun a => if a = k then none else st.entries a⟩

/-- Dispatchable `set_single_entry(origin, entry)`: unconditionally inserts the entry of the caller and emits `EntrySet(user, entry)`. -/
def set_single_entry (st : State) (user : Identity) (entry : Nat) : Result :=
  ⟨.ok, st.insert user entry, [.entrySet user entry], 0, 0, 1, 0⟩

/-- Dispatchable `get_single_entry(origin, account)`: any caller may read the entry of any account; fails with `NoValueStored` when absent, otherwise emits
`EntryGot(getter, entry)` — the event names the reader, not the read key. -/
def get_single_entry (st : State) (getter account : Identity) : Result :=
  if (st.entries account).isSome then
    let entry := (st.entries account).getD 0
    ⟨.ok, st, [.entryGot getter entry], 1, 1, 0, 0⟩
  else ⟨.err .noValueStored, st, [], 0, 1, 0, 0⟩

/-- Dispatchable `take_single_entry(origin)`: fails with `NoValueStored` when the caller
has no entry, otherwise removes it via `take` and emits
`EntryTaken(user, entry)`. -/
def take_single_entry (st : State) (user : Identity) : Result :=
  if (st.entries user).isSome then
    let entry := (st.entries user).getD 0
    ⟨.ok, st.remove user, [.entryTaken user entry], 0, 1, 0, 1⟩
  else ⟨.err .noValueStored, st, [], 0, 1, 0, 0⟩

/-- Dispatchable `increase_single_entry(origin, add_this_val)`: fails with `NoValueStored`
when the caller has no entry; otherwise checked-adds `add_this_val`, failing
with `MaxValueReached` on overflow, and on success stores the sum and emits
`EntryIncreased(user, old, new)`. -/
def increase_single_entry (st : State) (user : Identity) (add_this_val : Nat) : Result :=
  if (st.entries user).isSome then
    let original_value := (st.entries user).getD 0
    match checked_add original_value add_this_val with
    | none => ⟨.err .maxValueReached, st, [], 1, 1, 0, 0⟩
    | some new_value =>
      ⟨.ok, st.insert user new_value,
        [.entryIncreased user original_value new_value], 1, 1, 1, 0⟩
  else ⟨.err .noValueStored, st, [], 0, 1, 0, 0⟩

/-- One dispatchable of the simple-map pallet with its non-caller
arguments. -/
inductive Call where
  | set (entry : Nat)
  | get (account : Identity)
  | take
  | increase (add_this_val : Nat)
deriving DecidableEq, Repr

/-- Dispatch one call of the simple-map pallet. -/
def step (caller : Identity) (c : Call) (st : State) : Result :=
  match c with
  | .set v => set_single_entry st caller v
  | .get account => get_single_entry st caller account
  | .take => take_single_entry st caller
  | .increase d => increase_single_entry st caller d

/-- Genesis: the map is empty. -/
def emptyMap : State := ⟨fun _ => none⟩

end SimpleMap

namespace StorageCache

/-- C1: for every initial `GlobalCounter` (`SomeCopyValue`) and every delta,
`increase_value_no_cache` and `increase_value_w_copy` produce the same final
state (hence the same stored `GlobalCounter`) and the same success/failure
outcome, including which overflow step fails; the cached variant performs
exactly 1 backing-store read, the uncached one 2 (it performs its second,
wasteful read exactly when the first checked addition succeeds). -/
theorem C1_increase_variants_equivalent (st : State) (now some_val : Nat) :
    (increase_value_no_cache st now some_val).outcome
      = (increase_value_w_copy st now some_val).outcome
    ∧ (increase_value_no_cache st now some_val).state
      = (increase_value_w_copy st now some_val).state
    ∧ (increase_value_w_copy st now some_val).reads = 1
    ∧ (increase_value_no_cache st now some_val).reads
      = (if (st.someCopyValue.bind fun oc => checked_add oc some_val).isSome
          then 2 else 1) := by
  cases h : st.someCopyValue with
  | none =>
    simp [increase_value_no_cache, increase_value_w_copy, h]
  | some oc =>
    cases h1 : checked_add oc some_val with
    | none =>
      simp [increase_value_no_cache, increase_value_w_copy, h, h1]
    | some s1 =>
      cases h2 : checked_add s1 oc with
      | none =>
        simp [increase_value_no_cache, increase_value_w_copy, h, h1, h2]
      | some s2 =>
        simp [increase_value_no_cache, increase_value_w_copy, h, h1, h2]

/-- C2 counterexample: with `King = Held(0)` but the `GroupMembers` slot never
written, the caller `1` is not a member, so the claim predicts a
`notEligible` failure — but both swaps hit the `unwrap()` of the absent
member list (`membersPanic`) instead. -/
theorem C2_counterexample :
    (swap_king_no_cache ⟨none, some 0, none⟩ 1).outcome = .err .membersPanic
    ∧ (swap_king_no_cache ⟨none, some 0, none⟩ 1).outcome ≠ .err .notEligible
    ∧ (swap_king_with_cache ⟨none, some 0, none⟩ 1).outcome = .err .membersPanic
    ∧ (swap_king_with_cache ⟨none, some 0, none⟩ 1).outcome ≠ .err .notEligible := by
  decide

/-- C2 (amended: the `GroupMembers` slot must have been written, else the
membership check panics): with `King = Held(x)` and member list `ms`, a swap
(cached or uncached) succeeds iff `x` is not a member and the caller is;
it fails with `priorityHeld` when `x` is a member and with `notEligible`
when the caller is not; on success the state becomes `Held(caller)` with one
event recording (old king, new king); on any eligibility failure the state
is unchanged and no event is emitted. -/
theorem C2_swap_king_characterization (st : State) (x y : Identity)
    (ms : List Identity) (hk : st.kingMember = some x)
    (hm : st.groupMembers = some ms) : swapBehavior st x y ms := by
  unfold swapBehavior
  cases hcx : ms.contains x with
  | true =>
    have hx : x ∈ ms := by simpa using hcx
    simp [swap_king_no_cache, swap_king_with_cache, is_member, hk, hm, hcx, hx]
  | false =>
    have hx : x ∉ ms := by simpa using hcx
    cases hcy : ms.contains y with
    | true =>
      have hy : y ∈ ms := by simpa using hcy
      simp [swap_king_no_cache, swap_king_with_cache, is_member, hk, hm, hcx, hcy, hx, hy]
    | false =>
      have hy : y ∉ ms := by simpa using hcy
      simp [swap_king_no_cache, swap_king_with_cache, is_member, hk, hm, hcx, hcy, hx, hy]

/-- C2 witness: concrete instance with `King = Held(5)`, members `[7]`,
caller `7`. -/
theorem C2_witness :
    (⟨none, some 5, some [7]⟩ : State).kingMember = some 5
    ∧ (⟨none, some 5, some [7]⟩ : State).groupMembers = some [7]
    ∧ swapBehavior ⟨none, some 5, some [7]⟩ 5 7 [7] :=
  ⟨rfl, rfl, C2_swap_king_characterization _ 5 7 [7] rfl rfl⟩

/-- C3: reading a never-written singleton is a defined failure, not a crash:
both increase variants fail with `uninitialized` when `SomeCopyValue` is
absent, and both swap variants fail with `noIncumbent` when `KingMember`
is absent. -/
theorem C3_absent_singletons_fail_defined (st : State) (now some_val : Nat)
    (y : Identity) :
    (st.someCopyValue = none →
      (increase_value_no_cache st now some_val).outcome = .err .uninitialized
      ∧ (increase_value_w_copy st now some_val).outcome = .err .uninitialized)
    ∧ (st.kingMember = none →
      (swap_king_no_cache st y).outcome = .err .noIncumbent
      ∧ (swap_king_with_cache st y).outcome = .err .noIncumbent) := by
  constructor
  · intro h
    simp [increase_value_no_cache, increase_value_w_copy, h]
  · intro h
    simp [swap_king_no_cache, swap_king_with_cache, h]

/-- C3 witness: at genesis both slots are absent and all four operations
return the modelled defined failures. -/
theorem C3_witness :
    genesis.someCopyValue = none
    ∧ genesis.kingMember = none
    ∧ ((increase_value_no_cache genesis 0 1).outcome = .err .uninitialized
       ∧ (increase_value_w_copy genesis 0 1).outcome = .err .uninitialized)
    ∧ ((swap_king_no_cache genesis 2).outcome = .err .noIncumbent
       ∧ (swap_king_with_cache genesis 2).outcome = .err .noIncumbent) :=
  ⟨rfl, rfl, (C3_absent_singletons_fail_defined genesis 0 1 2).1 rfl,
    (C3_absent_singletons_fail_defined genesis 0 1 2).2 rfl⟩

/-- C5: when the `GroupMembers` slot has never been written, `is_member`
never returns `some false` (it hits the `unwrap` of the absent list), so
`mock_add_member` and — whenever an incumbent exists so that the membership
check is reached — both swap variants end in `membersPanic` instead of their
documented eligibility failures. -/
theorem C5_absent_members_partiality (st : State) (x caller k : Identity)
    (h : st.groupMembers = none) :
    is_member st x ≠ some false
    ∧ (mock_add_member st caller).outcome = .err .membersPanic
    ∧ (st.kingMember = some k →
        (swap_king_no_cache st caller).outcome = .err .membersPanic
        ∧ (swap_king_with_cache st caller).outcome = .err .membersPanic) := by
  refine ⟨?_, ?_, ?_⟩
  · simp [is_member, h]
  · simp [mock_add_member, h]
  · intro hk
    simp [swap_king_no_cache, swap_king_with_cache, is_member, h, hk]

/-- C5 witness: state with a king but no written member list. -/
theorem C5_witness :
    (⟨none, some 3, none⟩ : State).groupMembers = none
    ∧ (⟨none, some 3, none⟩ : State).kingMember = some 3
    ∧ is_member ⟨none, some 3, none⟩ 0 ≠ some false
    ∧ (mock_add_member ⟨none, some 3, none⟩ 1).outcome = .err .membersPanic
    ∧ (swap_king_no_cache ⟨none, some 3, none⟩ 1).outcome = .err .membersPanic
    ∧ (swap_king_with_cache ⟨none, some 3, none⟩ 1).outcome = .err .membersPanic := by
  have h := C5_absent_members_partiality ⟨none, some 3, none⟩ 0 1 3 rfl
  exact ⟨rfl, rfl, h.1, h.2.1, (h.2.2 rfl).1, (h.2.2 rfl).2⟩

/-- C6: from an unset `SomeCopyValue`, `set_copy 100` followed by
`increase_value_w_copy` with delta `50` at time `now` succeeds, stores
`100 + 50 + 100 = 250` and emits exactly `BetterValueChange(250, now)`. -/
theorem C6_set_then_increase_cached (st : State) (now : Nat)
    (_h : st.someCopyValue = none) :
    (increase_value_w_copy (set_copy st 100).state now 50).outcome = .ok
    ∧ (increase_value_w_copy (set_copy st 100).state now 50).state.someCopyValue
        = some 250
    ∧ (increase_value_w_copy (set_copy st 100).state now 50).events
        = [.betterValueChange 250 now] := by
  refine ⟨?_, ?_, ?_⟩ <;>
    simp [set_copy, increase_value_w_copy, checked_add, u32Max]

/-- C6 witness: the scenario run from genesis at time 9. -/
theorem C6_witness :
    genesis.someCopyValue = none
    ∧ (increase_value_w_copy (set_copy genesis 100).state 9 50).outcome = .ok
    ∧ (increase_value_w_copy (set_copy genesis 100).state 9 50).state.someCopyValue
        = some 250
    ∧ (increase_value_w_copy (set_copy genesis 100).state 9 50).events
        = [.betterValueChange 250 9] := by
  have h := C6_set_then_increase_cached genesis 9 rfl
  exact ⟨rfl, h.1, h.2.1, h.2.2⟩

/-- Case split shared by several claims: every storage-cache dispatchable
either succeeds emitting exactly its budgeted number of events, or fails
leaving the state untouched and emitting nothing. -/
theorem cacheStep_cases (caller now : Nat) (c : Call) (st : State) :
    ((step caller now c st).outcome = .ok
      ∧ (step caller now c st).events.length = cacheSuccessEventCount c)
    ∨ ((step caller now c st).outcome ≠ .ok
      ∧ (step caller now c st).state = st
      ∧ (step caller now c st).events = []) := by
  cases c with
  | increaseNoCache v =>
    cases h : st.someCopyValue with
    | none => right; simp [step, increase_value_no_cache, h]
    | some oc =>
      cases h1 : checked_add oc v with
      | none => right; simp [step, increase_value_no_cache, h, h1]
      | some s1 =>
        cases h2 : checked_add s1 oc with
        | none => right; simp [step, increase_value_no_cache, h, h1, h2]
        | some s2 =>
          left
          simp [step, increase_value_no_cache, cacheSuccessEventCount, h, h1, h2]
  | increaseWCopy v =>
    cases h : st.someCopyValue with
    | none => right; simp [step, increase_value_w_copy, h]
    | some oc =>
      cases h1 : checked_add oc v with
      | none => right; simp [step, increase_value_w_copy, h, h1]
      | some s1 =>
        cases h2 : checked_add s1 oc with
        | none => right; simp [step, increase_value_w_copy, h, h1, h2]
        | some s2 =>
          left
          simp [step, increase_value_w_copy, cacheSuccessEventCount, h, h1, h2]
  | swapNoCache =>
    cases h : st.kingMember with
    | none => right; simp [step, swap_king_no_cache, h]
    | some ek =>
      cases hm : st.groupMembers with
      | none => right; simp [step, swap_king_no_cache, is_member, h, hm]
      | some ms =>
        cases hek : ms.contains ek with
        | true =>
          have he : ek ∈ ms := by simpa using hek
          right; simp [step, swap_king_no_cache, is_member, h, hm, hek, he]
        | false =>
          have he : ek ∉ ms := by simpa using hek
          cases hnk : ms.contains caller with
          | true =>
            have hn : caller ∈ ms := by simpa using hnk
            left
            simp [step, swap_king_no_cache, is_member, cacheSuccessEventCount,
              h, hm, hek, hnk, he, hn]
          | false =>
            have hn : caller ∉ ms := by simpa using hnk
            right
            simp [step, swap_king_no_cache, is_member, h, hm, hek, hnk, he, hn]
  | swapWithCache =>
    cases h : st.kingMember with
    | none => right; simp [step, swap_king_with_cache, h]
    | some ek =>
      cases hm : st.groupMembers with
      | none => right; simp [step, swap_king_with_cache, is_member, h, hm]
      | some ms =>
        cases hek : ms.contains ek with
        | true =>
          have he : ek ∈ ms := by simpa using hek
          right; simp [step, swap_king_with_cache, is_member, h, hm, hek, he]
        | false =>
          have he : ek ∉ ms := by simpa using hek
          cases hnk : ms.contains caller with
          | true =>
            have hn : caller ∈ ms := by simpa using hnk
            left
            simp [step, swap_king_with_cache, is_member, cacheSuccessEventCount,
              h, hm, hek, hnk, he, hn]
          | false =>
            have hn : caller ∉ ms := by simpa using hnk
            right
            simp [step, swap_king_with_cache, is_member, h, hm, hek, hnk, he, hn]
  | setCopy v => left; simp [step, set_copy, cacheSuccessEventCount]
  | setKing => left; simp [step, set_king, cacheSuccessEventCount]
  | addMember =>
    cases hm : st.groupMembers with
    | none => right; simp [step, mock_add_member, hm]
    | some ms =>
      cases hc : ms.contains caller with
      | true =>
        have hmem : caller ∈ ms := by simpa using hc
        right; simp [step, mock_add_member, hm, hc, hmem]
      | false =>
        have hmem : caller ∉ ms := by simpa using hc
        left; simp [step, mock_add_member, cacheSuccessEventCount, hm, hc, hmem]

end StorageCache

namespace SimpleMap

/-- Case split shared by several claims: every simple-map dispatchable
either succeeds emitting exactly one event, or fails leaving the map
untouched and emitting nothing. -/
theorem mapStep_cases (caller : Identity) (c : Call) (st : State) :
    ((step caller c st).outcome = .ok ∧ (step caller c st).events.length = 1)
    ∨ ((step caller c st).outcome ≠ .ok
      ∧ (step caller c st).state = st
      ∧ (step caller c st).events = []) := by
  cases c with
  | set v => left; exact ⟨rfl, rfl⟩
  | get a =>
    by_cases h : (st.entries a).isSome
    · left; simp [step, get_single_entry, h]
    · right; simp [step, get_single_entry, h]
  | take =>
    by_cases h : (st.entries caller).isSome
    · left; simp [step, take_single_entry, h]
    · right; simp [step, take_single_entry, h]
  | increase d =>
    by_cases h : (st.entries caller).isSome
    · cases h1 : checked_add ((st.entries caller).getD 0) d with
      | none => right; simp [step, increase_single_entry, h, h1]
      | some nv => left; simp [step, increase_single_entry, h, h1]
    · right; simp [step, increase_single_entry, h]

/-- C7: `take` fails with `noValueStored` on an absent entry, leaving the
map and events untouched; after `set a v`, `take a` succeeds, emits
`EntryTaken(a, v)` (the taken value), removes the entry, and a subsequent
`get` of the entry of `a` fails with `noValueStored`. -/
theorem C7_take_semantics (st : State) (a g : Identity) (v : Nat) :
    (st.entries a = none →
      (take_single_entry st a).outcome = .err .noValueStored
      ∧ (take_single_entry st a).state = st
      ∧ (take_single_entry st a).events = [])
    ∧ ((take_single_entry (set_single_entry st a v).state a).outcome = .ok
      ∧ (take_single_entry (set_single_entry st a v).state a).events
          = [.entryTaken a v]
      ∧ (take_single_entry (set_single_entry st a v).state a).state.entries a
          = none
      ∧ (get_single_entry
            (take_single_entry (set_single_entry st a v).state a).state g a).outcome
          = .err .noValueStored) := by
  constructor
  · intro h
    simp [take_single_entry, h]
  · simp [set_single_entry, take_single_entry, get_single_entry,
      State.insert, State.remove]

/-- C7 witness: empty map, identity 0, value 42, reader 1. -/
theorem C7_witness :
    emptyMap.entries 0 = none
    ∧ ((take_single_entry emptyMap 0).outcome = .err .noValueStored
      ∧ (take_single_entry emptyMap 0).state = emptyMap
      ∧ (take_single_entry emptyMap 0).events = [])
    ∧ ((take_single_entry (set_single_entry emptyMap 0 42).state 0).outcome = .ok
      ∧ (take_single_entry (set_single_entry emptyMap 0 42).state 0).events
          = [.entryTaken 0 42]
      ∧ (take_single_entry (set_single_entry emptyMap 0 42).state 0).state.entries 0
          = none
      ∧ (get_single_entry
            (take_single_entry (set_single_entry emptyMap 0 42).state 0).state 1 0).outcome
          = .err .noValueStored) := by
  have h := C7_take_semantics emptyMap 0 1 42
  exact ⟨rfl, h.1 rfl, h.2⟩

end SimpleMap

/-- C4: every failing dispatchable, in both pallets, leaves the state
exactly as it was and emits no event; in particular, for every `v, d` whose
sum overflows 32 bits, `increase(a, d)` after `set(a, v)` fails with
`maxValueReached` and the stored entry for `a` remains `v`. -/
theorem C4_failure_commits_nothing :
    (∀ (caller now : Nat) (c : StorageCache.Call) (st : StorageCache.State)
        (e : StorageCache.Err),
      (StorageCache.step caller now c st).outcome = .err e →
        (StorageCache.step caller now c st).state = st
        ∧ (StorageCache.step caller now c st).events = [])
    ∧ (∀ (caller : Identity) (c : SimpleMap.Call) (st : SimpleMap.State)
        (e : SimpleMap.Err),
      (SimpleMap.step caller c st).outcome = .err e →
        (SimpleMap.step caller c st).state = st
        ∧ (SimpleMap.step caller c st).events = [])
    ∧ (∀ (st : SimpleMap.State) (a : Identity) (v d : Nat), u32Max < v + d →
        (SimpleMap.increase_single_entry
            (SimpleMap.set_single_entry st a v).state a d).outcome
          = SimpleMap.Outcome.err .maxValueReached
        ∧ (SimpleMap.increase_single_entry
            (SimpleMap.set_single_entry st a v).state a d).state
          = (SimpleMap.set_single_entry st a v).state
        ∧ (SimpleMap.increase_single_entry
            (SimpleMap.set_single_entry st a v).state a d).state.entries a
          = some v
        ∧ (SimpleMap.increase_single_entry
            (SimpleMap.set_single_entry st a v).state a d).events = []) := by
  refine ⟨?_, ?_, ?_⟩
  · intro caller now c st e h
    rcases StorageCache.cacheStep_cases caller now c st with ⟨hok, _⟩ | ⟨_, hst, hev⟩
    · rw [h] at hok; cases hok
    · exact ⟨hst, hev⟩
  · intro caller c st e h
    rcases SimpleMap.mapStep_cases caller c st with ⟨hok, _⟩ | ⟨_, hst, hev⟩
    · rw [h] at hok; cases hok
    · exact ⟨hst, hev⟩
  · intro st a v d h
    have hca : checked_add v d = none := by
      unfold checked_add
      rw [if_neg]
      omega
    simp [SimpleMap.set_single_entry, SimpleMap.increase_single_entry,
      SimpleMap.State.insert, hca]

/-- C4 witness: a failing call in each pallet and the overflow scenario at
`v = u32::MAX`, `d = 1`. -/
theorem C4_witness :
    (StorageCache.step 0 0 .addMember StorageCache.genesis).outcome
      = StorageCache.Outcome.err .membersPanic
    ∧ ((StorageCache.step 0 0 .addMember StorageCache.genesis).state
        = StorageCache.genesis
      ∧ (StorageCache.step 0 0 .addMember StorageCache.genesis).events = [])
    ∧ (SimpleMap.step 0 .take SimpleMap.emptyMap).outcome
      = SimpleMap.Outcome.err .noValueStored
    ∧ ((SimpleMap.step 0 .take SimpleMap.emptyMap).state = SimpleMap.emptyMap
      ∧ (SimpleMap.step 0 .take SimpleMap.emptyMap).events = [])
    ∧ u32Max < u32Max + 1
    ∧ ((SimpleMap.increase_single_entry
          (SimpleMap.set_single_entry SimpleMap.emptyMap 3 u32Max).state 3 1).outcome
        = SimpleMap.Outcome.err .maxValueReached
      ∧ (SimpleMap.increase_single_entry
          (SimpleMap.set_single_entry SimpleMap.emptyMap 3 u32Max).state 3 1).state
        = (SimpleMap.set_single_entry SimpleMap.emptyMap 3 u32Max).state
      ∧ (SimpleMap.increase_single_entry
          (SimpleMap.set_single_entry SimpleMap.emptyMap 3 u32Max).state 3 1).state.entries 3
        = some u32Max
      ∧ (SimpleMap.increase_single_entry
          (SimpleMap.set_single_entry SimpleMap.emptyMap 3 u32Max).state 3 1).events = []) :=
  ⟨rfl, C4_failure_commits_nothing.1 0 0 .addMember StorageCache.genesis .membersPanic rfl,
    rfl, C4_failure_commits_nothing.2.1 0 .take SimpleMap.emptyMap .noValueStored rfl,
    Nat.lt_succ_self u32Max,
    C4_failure_commits_nothing.2.2 SimpleMap.emptyMap 3 u32Max 1 (Nat.lt_succ_self u32Max)⟩

namespace StorageCache

/-- Effect of one storage-cache dispatch on the `GroupMembers` slot: it is
either untouched, or (successful `mock_add_member`) extended by a caller who
was not yet on the list. -/
theorem cacheStep_groupMembers (caller now : Nat) (c : Call) (st : State) :
    (step caller now c st).state.groupMembers = st.groupMembers
    ∨ (∃ ms, st.groupMembers = some ms ∧ caller ∉ ms
        ∧ (step caller now c st).state.groupMembers = some (ms ++ [caller])) := by
  cases c with
  | increaseNoCache v =>
    left
    cases h : st.someCopyValue with
    | none => simp [step, increase_value_no_cache, h]
    | some oc =>
      cases h1 : checked_add oc v with
      | none => simp [step, increase_value_no_cache, h, h1]
      | some s1 =>
        cases h2 : checked_add s1 oc with
        | none => simp [step, increase_value_no_cache, h, h1, h2]
        | some s2 => simp [step, increase_value_no_cache, h, h1, h2]
  | increaseWCopy v =>
    left
    cases h : st.someCopyValue with
    | none => simp [step, increase_value_w_copy, h]
    | some oc =>
      cases h1 : checked_add oc v with
      | none => simp [step, increase_value_w_copy, h, h1]
      | some s1 =>
        cases h2 : checked_add s1 oc with
        | none => simp [step, increase_value_w_copy, h, h1, h2]
        | some s2 => simp [step, increase_value_w_copy, h, h1, h2]
  | swapNoCache =>
    left
    cases h : st.kingMember with
    | none => simp [step, swap_king_no_cache, h]
    | some ek =>
      cases hm : st.groupMembers with
      | none => simp [step, swap_king_no_cache, is_member, h, hm]
      | some ms =>
        cases hek : ms.contains ek with
        | true =>
          have he : ek ∈ ms := by simpa using hek
          simp [step, swap_king_no_cache, is_member, h, hm, he]
        | false =>
          have he : ek ∉ ms := by simpa using hek
          by_cases hn : caller ∈ ms <;>
            simp [step, swap_king_no_cache, is_member, h, hm, he, hn]
  | swapWithCache =>
    left
    cases h : st.kingMember with
    | none => simp [step, swap_king_with_cache, h]
    | some ek =>
      cases hm : st.groupMembers with
      | none => simp [step, swap_king_with_cache, is_member, h, hm]
      | some ms =>
        cases hek : ms.contains ek with
        | true =>
          have he : ek ∈ ms := by simpa using hek
          simp [step, swap_king_with_cache, is_member, h, hm, he]
        | false =>
          have he : ek ∉ ms := by simpa using hek
          by_cases hn : caller ∈ ms <;>
            simp [step, swap_king_with_cache, is_member, h, hm, he, hn]
  | setCopy v => left; simp [step, set_copy]
  | setKing => left; simp [step, set_king]
  | addMember =>
    cases hm : st.groupMembers with
    | none => left; simp [step, mock_add_member, hm]
    | some ms =>
      by_cases hc : caller ∈ ms
      · left; simp [step, mock_add_member, hm, hc]
      · right
        exact ⟨ms, rfl, hc, by simp [step, mock_add_member, hm, hc]⟩

/-- Each storage-cache dispatch preserves duplicate-freedom of the member
list. -/
theorem cacheStep_preserves_membersNodup (caller now : Nat) (c : Call)
    (st : State) (h : membersNodup st) :
    membersNodup (step caller now c st).state := by
  rcases cacheStep_groupMembers caller now c st with heq | ⟨ms, hm, hc, hnew⟩
  · intro ms2 hms2
    exact h ms2 (heq ▸ hms2)
  · intro ms2 hms2
    rw [hnew] at hms2
    injection hms2 with h2
    subst h2
    have hnd := h ms hm
    simp [List.nodup_append, hnd, hc]

/-- Every state reachable from genesis has a duplicate-free member list. -/
theorem reachable_membersNodup : ∀ st, Reachable st → membersNodup st := by
  intro st h
  induction h with
  | genesis =>
    intro ms hms
    simp [genesis] at hms
  | step caller now c st0 _ ih =>
    exact cacheStep_preserves_membersNodup caller now c st0 ih

/-- C8 counterexample: genesis is reachable and its `GroupMembers` slot was
never written; the caller `0` is not a member there, yet `mock_add_member`
does not append — it dies on the `unwrap` of the absent list (and does not
fail with `alreadyMember` either). -/
theorem C8_counterexample :
    Reachable genesis
    ∧ (mock_add_member genesis 0).outcome = .err .membersPanic
    ∧ (mock_add_member genesis 0).outcome ≠ .err .alreadyMember
    ∧ (mock_add_member genesis 0).state.groupMembers = none :=
  ⟨Reachable.genesis, rfl, by decide, rfl⟩

/-- C8 (amended: the append behaviour of `mock_add_member` holds only once
the `GroupMembers` slot has been written; on an absent list the call fails
on the `unwrap` and writes nothing): every reachable state has a
duplicate-free member list, every dispatch preserves that invariant, and on
a written list `ms`, `mock_add_member` fails with `alreadyMember` exactly
when the caller is present (leaving the state unchanged) and otherwise
appends the caller. -/
theorem C8_membership_invariant :
    (∀ st, Reachable st → membersNodup st)
    ∧ (∀ (caller now : Nat) (c : Call) (st : State),
        membersNodup st → membersNodup (step caller now c st).state)
    ∧ (∀ (st : State) (ms : List Identity) (caller : Identity),
        st.groupMembers = some ms →
        (caller ∈ ms →
          (mock_add_member st caller).outcome = .err .alreadyMember
          ∧ (mock_add_member st caller).state = st)
        ∧ (caller ∉ ms →
          (mock_add_member st caller).outcome = .ok
          ∧ (mock_add_member st caller).state.groupMembers
              = some (ms ++ [caller]))) := by
  refine ⟨reachable_membersNodup, cacheStep_preserves_membersNodup, ?_⟩
  intro st ms caller hm
  constructor
  · intro hc
    simp [mock_add_member, hm, hc]
  · intro hc
    simp [mock_add_member, hm, hc]

/-- C8 witness: genesis is reachable and duplicate-free; on the written list
`[2]`, adding `2` fails with `alreadyMember` and adding `3` appends. -/
theorem C8_witness :
    Reachable genesis
    ∧ membersNodup genesis
    ∧ (⟨none, none, some [2]⟩ : State).groupMembers = some [2]
    ∧ (2 : Identity) ∈ ([2] : List Identity)
    ∧ (mock_add_member ⟨none, none, some [2]⟩ 2).outcome = .err .alreadyMember
    ∧ (mock_add_member ⟨none, none, some [2]⟩ 2).state = ⟨none, none, some [2]⟩
    ∧ (3 : Identity) ∉ ([2] : List Identity)
    ∧ (mock_add_member ⟨none, none, some [2]⟩ 3).outcome = .ok
    ∧ (mock_add_member ⟨none, none, some [2]⟩ 3).state.groupMembers
        = some ([2] ++ [3]) := by
  have h := C8_membership_invariant
  refine ⟨Reachable.genesis, h.1 genesis Reachable.genesis, rfl, by decide,
    ?_, ?_, by decide, ?_, ?_⟩
  · exact ((h.2.2 _ [2] 2 rfl).1 (by decide)).1
  · exact ((h.2.2 _ [2] 2 rfl).1 (by decide)).2
  · exact ((h.2.2 _ [2] 3 rfl).2 (by decide)).1
  · exact ((h.2.2 _ [2] 3 rfl).2 (by decide)).2

end StorageCache

/-- C9 counterexample: `set_copy`, `set_king` and `mock_add_member` all
succeed while depositing no event, contradicting "exactly one event per
successful mutating call". -/
theorem C9_counterexample :
    (StorageCache.set_copy StorageCache.genesis 7).outcome = StorageCache.Outcome.ok
    ∧ (StorageCache.set_copy StorageCache.genesis 7).events.length = 0
    ∧ (StorageCache.set_copy StorageCache.genesis 7).events.length ≠ 1
    ∧ (StorageCache.set_king StorageCache.genesis 4).outcome = StorageCache.Outcome.ok
    ∧ (StorageCache.set_king StorageCache.genesis 4).events.length = 0
    ∧ (StorageCache.mock_add_member ⟨none, none, some []⟩ 4).outcome
        = StorageCache.Outcome.ok
    ∧ (StorageCache.mock_add_member ⟨none, none, some []⟩ 4).events.length = 0 := by
  decide

/-- C9 (amended: `set_copy`, `set_king` and `mock_add_member` deposit no
event on success — only the increase/swap calls and the simple-map calls
deposit exactly one): every failing call emits zero events, and every
successful call emits exactly its budgeted number of events (one for each
increase/swap variant and each simple-map dispatchable, zero for `set_copy`,
`set_king` and `mock_add_member`). -/
theorem C9_event_discipline :
    (∀ (caller now : Nat) (c : StorageCache.Call) (st : StorageCache.State),
      ((StorageCache.step caller now c st).outcome = StorageCache.Outcome.ok →
        (StorageCache.step caller now c st).events.length
          = StorageCache.cacheSuccessEventCount c)
      ∧ ∀ e, (StorageCache.step caller now c st).outcome = .err e →
          (StorageCache.step caller now c st).events = [])
    ∧ (∀ (caller : Identity) (c : SimpleMap.Call) (st : SimpleMap.State),
      ((SimpleMap.step caller c st).outcome = SimpleMap.Outcome.ok →
        (SimpleMap.step caller c st).events.length = 1)
      ∧ ∀ e, (SimpleMap.step caller c st).outcome = .err e →
          (SimpleMap.step caller c st).events = []) := by
  constructor
  · intro caller now c st
    rcases StorageCache.cacheStep_cases caller now c st with ⟨hok, hlen⟩ | ⟨hne, _, hev⟩
    · refine ⟨fun _ => hlen, fun e he => ?_⟩
      rw [hok] at he
      cases he
    · exact ⟨fun hok => absurd hok hne, fun e _ => hev⟩
  · intro caller c st
    rcases SimpleMap.mapStep_cases caller c st with ⟨hok, hlen⟩ | ⟨hne, _, hev⟩
    · refine ⟨fun _ => hlen, fun e he => ?_⟩
      rw [hok] at he
      cases he
    · exact ⟨fun hok => absurd hok hne, fun e _ => hev⟩

/-- C9 witness: a successful swap (one event), a successful `set_copy`
(zero events), a successful simple-map `set` (one event) and a failing
`take` (zero events). -/
theorem C9_witness :
    (StorageCache.step 7 0 .swapWithCache ⟨none, some 5, some [7]⟩).outcome
      = StorageCache.Outcome.ok
    ∧ (StorageCache.step 7 0 .swapWithCache ⟨none, some 5, some [7]⟩).events.length
      = StorageCache.cacheSuccessEventCount .swapWithCache
    ∧ (StorageCache.step 3 0 (.setCopy 9) StorageCache.genesis).outcome
      = StorageCache.Outcome.ok
    ∧ (StorageCache.step 3 0 (.setCopy 9) StorageCache.genesis).events.length
      = StorageCache.cacheSuccessEventCount (.setCopy 9)
    ∧ (SimpleMap.step 2 (.set 5) SimpleMap.emptyMap).outcome = SimpleMap.Outcome.ok
    ∧ (SimpleMap.step 2 (.set 5) SimpleMap.emptyMap).events.length = 1
    ∧ (SimpleMap.step 2 .take SimpleMap.emptyMap).outcome
      = SimpleMap.Outcome.err .noValueStored
    ∧ (SimpleMap.step 2 .take SimpleMap.emptyMap).events = [] := by
  refine ⟨by decide, (C9_event_discipline.1 7 0 .swapWithCache _).1 (by decide),
    by decide, (C9_event_discipline.1 3 0 (.setCopy 9) _).1 (by decide),
    rfl, (C9_event_discipline.2 2 (.set 5) SimpleMap.emptyMap).1 rfl,
    rfl, (C9_event_discipline.2 2 .take SimpleMap.emptyMap).2 .noValueStored rfl⟩

/-- C10 counterexample: `set_single_entry` performs zero backing-store
reads, not exactly one. -/
theorem C10_counterexample :
    (SimpleMap.set_single_entry SimpleMap.emptyMap 0 5).outcome
      = SimpleMap.Outcome.ok
    ∧ (SimpleMap.set_single_entry SimpleMap.emptyMap 0 5).reads = 0
    ∧ (SimpleMap.set_single_entry SimpleMap.emptyMap 0 5).reads ≠ 1 :=
  ⟨rfl, rfl, by decide⟩

/-- C10 (amended: `set` performs zero reads, and `get`/`take`/`increase`
read only after their containment check succeeds): exact backing-store
primitive counts per simple-map call — `set`: one write, nothing else;
`get`: one containment check, one read when the entry is present, no
write/remove; `take`: one containment check, one remove when present, no
read/write; `increase`: one containment check, one read when present, one
write exactly when it succeeds, no remove.  In particular every operation
performs at most one read, at most one write, and never reads the same key
twice. -/
theorem C10_storage_access_counts (st : SimpleMap.State)
    (caller target : Identity) (v d : Nat) :
    ((SimpleMap.set_single_entry st caller v).reads = 0
      ∧ (SimpleMap.set_single_entry st caller v).containsChecks = 0
      ∧ (SimpleMap.set_single_entry st caller v).writes = 1
      ∧ (SimpleMap.set_single_entry st caller v).removes = 0)
    ∧ ((SimpleMap.get_single_entry st caller target).containsChecks = 1
      ∧ (SimpleMap.get_single_entry st caller target).reads
          = (if (st.entries target).isSome then 1 else 0)
      ∧ (SimpleMap.get_single_entry st caller target).writes = 0
      ∧ (SimpleMap.get_single_entry st caller target).removes = 0)
    ∧ ((SimpleMap.take_single_entry st caller).containsChecks = 1
      ∧ (SimpleMap.take_single_entry st caller).reads = 0
      ∧ (SimpleMap.take_single_entry st caller).writes = 0
      ∧ (SimpleMap.take_single_entry st caller).removes
          = (if (st.entries caller).isSome then 1 else 0))
    ∧ ((SimpleMap.increase_single_entry st caller d).containsChecks = 1
      ∧ (SimpleMap.increase_single_entry st caller d).reads
          = (if (st.entries caller).isSome then 1 else 0)
      ∧ (SimpleMap.increase_single_entry st caller d).writes
          = (if (SimpleMap.increase_single_entry st caller d).outcome
                = SimpleMap.Outcome.ok then 1 else 0)
      ∧ (SimpleMap.increase_single_entry st caller d).removes = 0) := by
  refine ⟨⟨rfl, rfl, rfl, rfl⟩, ?_, ?_, ?_⟩
  · by_cases h : (st.entries target).isSome <;>
      simp [SimpleMap.get_single_entry, h]
  · by_cases h : (st.entries caller).isSome <;>
      simp [SimpleMap.take_single_entry, h]
  · by_cases h : (st.entries caller).isSome
    · cases h1 : checked_add ((st.entries caller).getD 0) d <;>
        simp [SimpleMap.increase_single_entry, h, h1]
    · simp [SimpleMap.increase_single_entry, h]
